import Mathlib

/-!
Verification of the KPU inference engine (`src/lib/bsp/device/kpu.cpp`).

The development shallowly embeds the data model and the operations of the
engine: byte-addressed memories are functions `Nat → Nat` (each value a byte),
buffers are lists or functions over `Nat` indices, destination writes are
explicit pointwise updates folded in program order, and 64-bit signed
arithmetic is `Int` with an explicit wrap at `2 ^ 64`.
-/

/-- Pointwise update of a byte-addressed memory: write value `v` at address `a`. -/
def memUpd (m : Nat → Nat) (a v : Nat) : Nat → Nat :=
  fun x => if x = a then v else m x

/-! ## Tensor staging: `kpu_upload_core` (C1)

`kpu_upload_core` chooses `(row_padding, row_group, row_length)` from the
width, then copies the planar source tensor into the tiled destination,
channel by channel and row by row.  Destination addresses are modelled
relative to `dest` (`AI_IO_BASE_ADDR + kpu_addr * 64` in the source). -/

/-- `row_padding` selected by `kpu_upload_core` from the width. -/
def uploadRowPadding (width : Nat) : Nat :=
  if width ≤ 16 then 16 else if width ≤ 32 then 32 else 64

/-- `row_group` selected by `kpu_upload_core` from the width. -/
def uploadRowGroup (width : Nat) : Nat :=
  if width ≤ 16 then 4 else if width ≤ 32 then 2 else 1

/-- `row_length` selected by `kpu_upload_core` from the width. -/
def uploadRowLength (width : Nat) : Nat :=
  if width ≤ 16 then 1 else if width ≤ 32 then 1 else (width + 63) / 64

/-- `channel_origin` of `kpu_upload_core`:
`dest + oc / row_group * row_length * height * 64 + oc % row_group * row_padding`. -/
def uploadChannelOrigin (width height oc : Nat) : Nat :=
  oc / uploadRowGroup width * uploadRowLength width * height * 64 +
    oc % uploadRowGroup width * uploadRowPadding width

/-- The byte-wise path of `kpu_upload_core`: for each channel `oc`, row `y` and
column `x` it writes the next source byte at
`channel_origin + y * row_length * 64 + x`.  The source pointer advances by one
byte per write, so the byte written at `(oc, y, x)` is
`src ((oc * height + y) * width + x)`. -/
def uploadByte (width height channels : Nat) (src : Nat → Nat) (mem : Nat → Nat) :
    Nat → Nat :=
  (List.range channels).foldl (fun m oc =>
    (List.range height).foldl (fun m y =>
      (List.range width).foldl (fun m x =>
        memUpd m (uploadChannelOrigin width height oc + y * uploadRowLength width * 64 + x)
          (src ((oc * height + y) * width + x))) m) m) mem

/-- The 64-bit fast path of `kpu_upload_core` (taken when the source pointer is
8-byte aligned and `width % 8 == 0`).  The code computes
`uint64_t *y_origin = (uint64_t *)channel_origin + y * row_length * 64L;`
so the cast binds to `channel_origin` alone and the row offset
`y * row_length * 64` is scaled by `sizeof(uint64_t) = 8` by pointer
arithmetic: row `y` starts at byte `channel_origin + y * row_length * 64 * 8`.
Each 64-bit store `y_origin[x] = *u64_src++` writes the 8 source bytes
`8*x .. 8*x+7` of the current (channel, row) block little-endian, i.e. source
byte `(oc * height + y) * width + 8 * x + j` goes to byte `8 * x + j` of the
row. -/
def uploadFast (width height channels : Nat) (src : Nat → Nat) (mem : Nat → Nat) :
    Nat → Nat :=
  (List.range channels).foldl (fun m oc =>
    (List.range height).foldl (fun m y =>
      (List.range (width / 8)).foldl (fun m x =>
        (List.range 8).foldl (fun m j =>
          memUpd m
            (uploadChannelOrigin width height oc + y * uploadRowLength width * 64 * 8
              + 8 * x + j)
            (src ((oc * height + y) * width + 8 * x + j))) m) m) m) mem

/-! ## Tensor staging: `kpu_add_padding` / `kpu_remove_padding` (C2) -/

/-- `kpu_add_padding`: with fixed `row_padding = 16`, `row_group = 4`,
`row_length = 1`, `height = 4`, each channel `oc` contributes one byte
(`y < 1`, `x < 1` loops), written at
`channel_origin = oc / 4 * (1 * 4 * 64) + oc % 4 * 16` within the destination
region.  The source pointer advances once per write, so channel `oc` stages
`src oc`. -/
def addPaddingMem (channels : Nat) (src : Nat → Nat) (mem : Nat → Nat) : Nat → Nat :=
  (List.range channels).foldl (fun m oc =>
    (List.range 1).foldl (fun m y =>
      (List.range 1).foldl (fun m x =>
        memUpd m (oc / 4 * (1 * 4 * 64) + oc % 4 * 16 + y * 1 * 64 + x) (src oc)) m) m) mem

/-- `kpu_remove_padding`: reads `channels` bytes from the source region at
stride 16 (`dest[oc] = src[oc * 16]`) into a packed list. -/
def removePaddingList (channels : Nat) (mem : Nat → Nat) : List Nat :=
  (List.range channels).map (fun oc => mem (oc * 16))

/-- Claim C1: the byte-wise path and the 64-bit fast path of `kpu_upload_core`
are claimed to write byte-identical destination contents for every 8-aligned
source whose width is a multiple of 8.  The code violates this: at
`width = 8`, `height = 2`, `channels = 1` with source bytes `0..15` over an
all-zero destination, the byte path puts row 1 (source bytes `8..15`) at
destination offset 64, while the fast path puts it at offset 512 — the cast in
`(uint64_t *)channel_origin + y * row_length * 64L` binds before the addition,
scaling the row offset by 8.  Destination byte 64 therefore differs between
the two paths. -/
theorem upload_fast_path_diverges :
    uploadByte 8 2 1 (fun i => i) (fun _ => 0) 64 = 8 ∧
    uploadFast 8 2 1 (fun i => i) (fun _ => 0) 64 = 0 ∧
    uploadFast 8 2 1 (fun i => i) (fun _ => 0) 512 = 8 ∧
    uploadFast 8 2 1 (fun i => i) (fun _ => 0) 64 ≠
      uploadByte 8 2 1 (fun i => i) (fun _ => 0) 64 := by
  decide

/-- Claim C2 (amended): for channel counts `c ≤ 4`, `add_padding` followed by
`remove_padding` on the region it produced returns the staged byte of every
channel intact: channel `oc < 4` is staged at offset
`oc / 4 * 256 + oc % 4 * 16 = oc * 16`, exactly where `remove_padding` reads
byte `oc`. -/
theorem padding_round_trip (channels : Nat) (h : channels ≤ 4)
    (src mem : Nat → Nat) :
    removePaddingList channels (addPaddingMem channels src mem) =
      (List.range channels).map src := by
  interval_cases channels <;> rfl

/-- Witness for `padding_round_trip` at `channels = 4`. -/
theorem padding_round_trip_witness :
    removePaddingList 4 (addPaddingMem 4 (fun i => i + 1) (fun _ => 0)) =
      (List.range 4).map (fun i => i + 1) :=
  padding_round_trip 4 (by decide) (fun i => i + 1) (fun _ => 0)

/-- Claim C2 counterexample: with 5 channels, `add_padding` stages channel 4 at
offset `4 / 4 * 256 + 0 = 256`, but `remove_padding` reads byte 4 from offset
`4 * 16 = 64`, which `add_padding` never wrote; over an all-zero region with
source bytes `1..5` the round trip returns `[1, 2, 3, 4, 0]`, not
`[1, 2, 3, 4, 5]`. -/
theorem padding_round_trip_counterexample :
    removePaddingList 5 (addPaddingMem 5 (fun i => i + 1) (fun _ => 0)) ≠
      (List.range 5).map (fun i => i + 1) := by
  decide

/-! ## CPU kernel: `kpu_quantized_add` (C3)

All arithmetic in the kernel is C `int64_t`: modelled as `Int` with an
explicit two's-complement wrap at `2 ^ 64` after every addition and
multiplication, and arithmetic right shift as floor division by a power of
two. -/

/-- Two's-complement wrap of an integer into the `int64_t` range. -/
def wrap64 (x : Int) : Int := Int.emod (x + 2 ^ 63) (2 ^ 64) - 2 ^ 63

/-- `int64_t` addition. -/
def add64 (a b : Int) : Int := wrap64 (a + b)

/-- `int64_t` multiplication. -/
def mul64 (a b : Int) : Int := wrap64 (a * b)

/-- Arithmetic right shift (`>>` on an in-range `int64_t` value). -/
def asr64 (a : Int) (n : Nat) : Int := Int.fdiv a (2 ^ n)

/-- The clamp-and-store of the quantized kernels:
`if (value < 0) value = 0; if (value > 0xFF) value = 0xFF; *dest = value;`. -/
def clampU8 (v : Int) : Nat := if v < 0 then 0 else if 255 < v then 255 else v.toNat

/-- Quantization parameters of `kpu_model_quant_add_layer_argument_t`, read
into `int64_t` locals by the kernel (shift counts kept as naturals). -/
structure QuantAddArgs where
  off_a : Int
  mul_a : Int
  sh_a : Nat
  off_b : Int
  mul_b : Int
  sh_b : Nat
  off_o : Int
  mul_o : Int
  sh_o : Nat

/-- One element of the `sh_a == sh_b` branch of `kpu_quantized_add`:
`a = (*src_a + off_a) * mul_a`, `b = (*src_b + off_b) * mul_b`,
`value = (((a + b) >> sh_a) * mul_o >> sh_o) + off_o`, clamped to a byte. -/
def quantAddElemSame (p : QuantAddArgs) (av bv : Nat) : Nat :=
  let a := mul64 (add64 (Int.ofNat av) p.off_a) p.mul_a
  let b := mul64 (add64 (Int.ofNat bv) p.off_b) p.mul_b
  clampU8 (add64 (asr64 (mul64 (asr64 (add64 a b) p.sh_a) p.mul_o) p.sh_o) p.off_o)

/-- One element of the `sh_a != sh_b` branch of `kpu_quantized_add`:
`a = (*src_a + off_a) * mul_a >> sh_a`, `b = (*src_b + off_b) * mul_b >> sh_b`,
`value = ((a + b) * mul_o >> sh_o) + off_o`, clamped to a byte. -/
def quantAddElemDiff (p : QuantAddArgs) (av bv : Nat) : Nat :=
  let a := asr64 (mul64 (add64 (Int.ofNat av) p.off_a) p.mul_a) p.sh_a
  let b := asr64 (mul64 (add64 (Int.ofNat bv) p.off_b) p.mul_b) p.sh_b
  clampU8 (add64 (asr64 (mul64 (add64 a b) p.mul_o) p.sh_o) p.off_o)

/-- `kpu_quantized_add`: loops `i < count`, reading byte `i` of each source
buffer and storing one output byte, with the branch chosen by `sh_a == sh_b`. -/
def kpu_quantized_add (p : QuantAddArgs) (count : Nat) (srcA srcB : Nat → Nat) :
    List Nat :=
  (List.range count).map (fun i =>
    if p.sh_a = p.sh_b then quantAddElemSame p (srcA i) (srcB i)
    else quantAddElemDiff p (srcA i) (srcB i))

/-- The per-element output value as the claim states it, written from the
claim's formula: `A = (a[i] + off_a) * mul_a`, `B = (b[i] + off_b) * mul_b`,
then `clamp(((A + B) >> sh_a) * mul_o >> sh_o) + off_o)` when `sh_a = sh_b`
and `clamp((((A >> sh_a) + (B >> sh_b)) * mul_o >> sh_o) + off_o)` otherwise,
in 64-bit signed arithmetic. -/
def quantAddClaimValue (p : QuantAddArgs) (av bv : Nat) : Nat :=
  let A := mul64 (add64 (Int.ofNat av) p.off_a) p.mul_a
  let B := mul64 (add64 (Int.ofNat bv) p.off_b) p.mul_b
  if p.sh_a = p.sh_b then
    clampU8 (add64 (asr64 (mul64 (asr64 (add64 A B) p.sh_a) p.mul_o) p.sh_o) p.off_o)
  else
    clampU8 (add64 (asr64 (mul64 (add64 (asr64 A p.sh_a) (asr64 B p.sh_b)) p.mul_o) p.sh_o) p.off_o)

theorem clampU8_le (v : Int) : clampU8 v ≤ 255 := by
  unfold clampU8
  split
  · omega
  · split
    · omega
    · omega

/-- Claim C3: for every element index `i < count` and all quantization
parameters, `kpu_quantized_add` stores as output byte `i` exactly the claimed
clamped value (branching on `sh_a = sh_b`), and every output byte lies in
`[0, 255]`. -/
theorem quantized_add_correct (p : QuantAddArgs) (count : Nat)
    (srcA srcB : Nat → Nat) (i : Nat) (hi : i < count) :
    (kpu_quantized_add p count srcA srcB).getD i 0 =
      quantAddClaimValue p (srcA i) (srcB i) ∧
    (kpu_quantized_add p count srcA srcB).getD i 0 ≤ 255 := by
  have hlen : i < (kpu_quantized_add p count srcA srcB).length := by
    simpa [kpu_quantized_add] using hi
  rw [List.getD_eq_getElem _ _ hlen]
  unfold kpu_quantized_add quantAddClaimValue
  simp only [List.getElem_map, List.getElem_range]
  constructor
  · by_cases h : p.sh_a = p.sh_b <;> simp [h, quantAddElemSame, quantAddElemDiff]
  · by_cases h : p.sh_a = p.sh_b <;>
      simp [h, quantAddElemSame, quantAddElemDiff, clampU8_le]

/-- Witness for `quantized_add_correct`: scenario 2 of the spec's end-to-end
tests, element 0 of `a = [10, ...]`, `b = [5, ...]` with identity
quantization, output byte `15`. -/
theorem quantized_add_correct_witness :
    (kpu_quantized_add ⟨0, 1, 0, 0, 1, 0, 0, 1, 0⟩ 4
        (fun i => 10 * (i + 1)) (fun _ => 5)).getD 0 0 =
      quantAddClaimValue ⟨0, 1, 0, 0, 1, 0, 0, 1, 0⟩ 10 5 ∧
    (kpu_quantized_add ⟨0, 1, 0, 0, 1, 0, 0, 1, 0⟩ 4
        (fun i => 10 * (i + 1)) (fun _ => 5)).getD 0 0 ≤ 255 :=
  quantized_add_correct ⟨0, 1, 0, 0, 1, 0, 0, 1, 0⟩ 4
    (fun i => 10 * (i + 1)) (fun _ => 5) 0 (by decide)

/-! ## Model container: `k_model_context` / `model_load_from_buffer` (C4, C6)

The byte sizes of `kpu_model_output_t` and `kpu_model_layer_header_t` are the
two-`u32` records of the artifact layout (8 bytes each).  `kpu.h`, which holds
`kpu_model_header_t`, is not part of the sources, so the header byte size is a
parameter of the loader; only the offset arithmetic relative to it is fixed by
the code. -/

/-- The kmodel header fields consumed by the constructor of `k_model_context`. -/
structure KpuModelHeader where
  version : Nat
  arch : Nat
  flags : Nat
  output_count : Nat
  layers_length : Nat
  main_mem_usage : Nat

/-- The section pointers recorded by `k_model_context`, as byte offsets from
the start of the model buffer, plus the scratch buffer size it allocates. -/
structure ModelSections where
  outputsOff : Nat
  layerHeadersOff : Nat
  bodyStartOff : Nat
  scratchSize : Nat
deriving DecidableEq

/-- The constructor of `k_model_context` (reached through
`model_load_from_buffer`): succeeds exactly on `version == 3 && arch == 0`,
recording `outputs_` at `sizeof(header)`, `layer_headers_` after
`output_count` 8-byte output descriptors, `body_start_` after `layers_length`
8-byte layer headers, and allocating `main_mem_usage` bytes of scratch;
otherwise it throws `"Cannot load kmodel."`. -/
def model_load_from_buffer (headerSize : Nat) (h : KpuModelHeader) :
    Except String ModelSections :=
  if h.version = 3 ∧ h.arch = 0 then
    Except.ok
      { outputsOff := headerSize
        layerHeadersOff := headerSize + 8 * h.output_count
        bodyStartOff := headerSize + 8 * h.output_count + 8 * h.layers_length
        scratchSize := h.main_mem_usage }
  else
    Except.error "Cannot load kmodel."

/-- Claim C4: `model_load_from_buffer` fails with the load error exactly when
`version ≠ 3` or `arch ≠ 0`; when `version = 3` and `arch = 0` it succeeds
with the section offsets computed from the header and a scratch buffer of
`main_mem_usage` bytes. -/
theorem model_load_header_gate (headerSize : Nat) (h : KpuModelHeader) :
    (model_load_from_buffer headerSize h = Except.error "Cannot load kmodel." ↔
      (h.version ≠ 3 ∨ h.arch ≠ 0)) ∧
    (h.version = 3 → h.arch = 0 →
      model_load_from_buffer headerSize h = Except.ok
        { outputsOff := headerSize
          layerHeadersOff := headerSize + 8 * h.output_count
          bodyStartOff := headerSize + 8 * h.output_count + 8 * h.layers_length
          scratchSize := h.main_mem_usage }) := by
  unfold model_load_from_buffer
  by_cases hva : h.version = 3 ∧ h.arch = 0
  · rw [if_pos hva]
    refine ⟨⟨fun hc => absurd hc (by simp), fun hc => ?_⟩, fun _ _ => rfl⟩
    rcases hc with hc | hc
    · exact absurd hva.1 hc
    · exact absurd hva.2 hc
  · rw [if_neg hva]
    refine ⟨⟨fun _ => ?_, fun _ => rfl⟩, fun hv ha => absurd ⟨hv, ha⟩ hva⟩
    by_cases hv : h.version = 3
    · exact Or.inr (fun ha => hva ⟨hv, ha⟩)
    · exact Or.inl hv

/-- Witness for `model_load_header_gate`: a version-3, arch-0 header with two
outputs, five layers and 100 scratch bytes loads with the expected section
offsets (header size 28). -/
theorem model_load_header_gate_witness :
    model_load_from_buffer 28 ⟨3, 0, 0, 2, 5, 100⟩ =
      Except.ok { outputsOff := 28, layerHeadersOff := 44, bodyStartOff := 84,
                  scratchSize := 100 } :=
  (model_load_header_gate 28 ⟨3, 0, 0, 2, 5, 100⟩).2 rfl rfl

/-! ## Execution driver: `get_output` (C5, C6) -/

/-- An output descriptor (`kpu_model_output_t`): scratch offset and byte size. -/
structure KpuModelOutput where
  address : Nat
  size : Nat
deriving DecidableEq

/-- `k_kpu_driver::get_output`: returns `-1` when `index >= output_count`,
otherwise the pointer `main_buffer + outputs[index].address` and size
`outputs[index].size`.  Pointers are byte addresses, `scratchBase` standing
for `ctx_.main_buffer`. -/
def get_output (scratchBase : Nat) (outputs : List KpuModelOutput) (index : Nat) :
    Except Int (Nat × Nat) :=
  if index ≥ outputs.length then Except.error (-1)
  else
    let output := outputs.getD index ⟨0, 0⟩
    Except.ok (scratchBase + output.address, output.size)

/-- Claim C5: `get_output` fails with a negative status if and only if
`index ≥ output_count`; for `index < output_count` it returns the pointer
`scratch_base + descriptor.offset` and the size `descriptor.size` of output
descriptor `index`. -/
theorem get_output_spec (scratchBase : Nat) (outputs : List KpuModelOutput)
    (index : Nat) :
    ((∃ e : Int, get_output scratchBase outputs index = Except.error e ∧ e < 0) ↔
      outputs.length ≤ index) ∧
    (index < outputs.length →
      get_output scratchBase outputs index =
        Except.ok (scratchBase + (outputs.getD index ⟨0, 0⟩).address,
          (outputs.getD index ⟨0, 0⟩).size)) := by
  unfold get_output
  by_cases hix : index ≥ outputs.length
  · rw [if_pos hix]
    exact ⟨⟨fun _ => hix, fun _ => ⟨-1, rfl, by decide⟩⟩, fun hlt => absurd hix (by omega)⟩
  · rw [if_neg hix]
    constructor
    · constructor
      · rintro ⟨e, he, _⟩
        cases he
      · intro hle
        exact absurd hle hix
    · intro _
      rfl

/-- Witness for `get_output_spec`: with one descriptor `(4, 2)` at scratch base
100, index 0 yields pointer 104 and size 2. -/
theorem get_output_spec_witness :
    get_output 100 [⟨4, 2⟩] 0 = Except.ok (100 + 4, 2) := by
  have h := (get_output_spec 100 [⟨4, 2⟩] 0).2 (by decide)
  simpa using h

/-- Claim C6 (amended): for a model accepted by the loader
(`version = 3`, `arch = 0`) and an index below `output_count` whose descriptor
satisfies `offset + size ≤ main_mem_usage`, the region returned by
`get_output` lies fully inside the scratch buffer allocated by the loader and
the returned size equals the descriptor's size.  The loader itself does not
validate descriptors, so the containment hypothesis cannot be dropped. -/
theorem get_output_region_in_scratch (headerSize scratchBase : Nat)
    (h : KpuModelHeader) (outputs : List KpuModelOutput) (index : Nat)
    (hv : h.version = 3) (ha : h.arch = 0) (hix : index < outputs.length)
    (hb : (outputs.getD index ⟨0, 0⟩).address + (outputs.getD index ⟨0, 0⟩).size ≤
      h.main_mem_usage) :
    ∃ s : ModelSections,
      model_load_from_buffer headerSize h = Except.ok s ∧
      get_output scratchBase outputs index =
        Except.ok (scratchBase + (outputs.getD index ⟨0, 0⟩).address,
          (outputs.getD index ⟨0, 0⟩).size) ∧
      scratchBase ≤ scratchBase + (outputs.getD index ⟨0, 0⟩).address ∧
      scratchBase + (outputs.getD index ⟨0, 0⟩).address +
          (outputs.getD index ⟨0, 0⟩).size ≤ scratchBase + s.scratchSize := by
  refine ⟨_, (model_load_header_gate headerSize h).2 hv ha, ?_, ?_, ?_⟩
  · exact (get_output_spec scratchBase outputs index).2 hix
  · omega
  · simp only [ModelSections.scratchSize]
    omega

/-- Witness for `get_output_region_in_scratch`: header `(3, 0)` with 10 scratch
bytes and the single descriptor `(4, 2)`. -/
theorem get_output_region_witness :
    ∃ s : ModelSections,
      model_load_from_buffer 28 ⟨3, 0, 0, 1, 1, 10⟩ = Except.ok s ∧
      get_output 100 [⟨4, 2⟩] 0 =
        Except.ok (100 + ((([⟨4, 2⟩] : List KpuModelOutput).getD 0 ⟨0, 0⟩).address),
          (([⟨4, 2⟩] : List KpuModelOutput).getD 0 ⟨0, 0⟩).size) ∧
      100 ≤ 100 + ((([⟨4, 2⟩] : List KpuModelOutput).getD 0 ⟨0, 0⟩).address) ∧
      100 + ((([⟨4, 2⟩] : List KpuModelOutput).getD 0 ⟨0, 0⟩).address) +
          (([⟨4, 2⟩] : List KpuModelOutput).getD 0 ⟨0, 0⟩).size ≤ 100 + s.scratchSize :=
  get_output_region_in_scratch 28 100 ⟨3, 0, 0, 1, 1, 10⟩ [⟨4, 2⟩] 0 rfl rfl
    (by decide) (by decide)

/-- Claim C6 counterexample: the loader accepts `version = 3`, `arch = 0` with
`main_mem_usage = 0` and never inspects the descriptors, so `get_output` on
the descriptor `(0, 1)` returns a 1-byte region that does not fit inside the
0-byte scratch buffer the loader allocated. -/
theorem get_output_region_counterexample :
    model_load_from_buffer 28 ⟨3, 0, 0, 1, 0, 0⟩ =
      Except.ok { outputsOff := 28, layerHeadersOff := 36, bodyStartOff := 36,
                  scratchSize := 0 } ∧
    get_output 0 [⟨0, 1⟩] 0 = Except.ok (0, 1) ∧
    ¬((0 : Nat) + 0 + 1 ≤ 0 +
        (ModelSections.mk 28 36 36 0).scratchSize) := by
  refine ⟨rfl, rfl, by decide⟩

/-! ## Accelerator interface: output DMA of `kpu_conv` (C7)

The DMA call issued by `kpu_conv` when the layer's `KLF_MAIN_MEM_OUT` flag is
set.  `kpu.h` (not under the sources) defines the flag constant; the spec
describes the flags word as carrying a single "main-mem-out" bit, modelled
here as bit 0. -/

/-- The parameters of one `dma_transmit_async` request. -/
structure DmaTransfer where
  fromFifo : Bool
  destAddress : Nat
  srcInc : Bool
  dstInc : Bool
  elementSize : Nat
  beats : Nat
  burst : Nat
  signalsCompletion : Bool
deriving DecidableEq

/-- Modelled from the spec: `KLF_MAIN_MEM_OUT` is the "main-mem-out" bit of
the convolutional layer's flags word (`kpu.h`, which carries the constant, is
not under the sources); the spec describes it as a single flag bit, taken as
bit 0. -/
def mainMemOutSet (flags : Nat) : Bool := flags % 2 = 1

/-- The output-DMA arm of `kpu_conv`: when `arg->flags & KLF_MAIN_MEM_OUT` is
set, it issues `dma_transmit_async(dma_ch_, &kpu_.fifo_data_out, dest, 0, 1,
sizeof(uint64_t), (dma_total_byte + 8) / 8, 8, completion_event_)` with
`dest = main_buffer + main_mem_out_address`; otherwise no output DMA is
issued. -/
def kpu_conv_output_dma (flags main_mem_out_address dma_total_byte : Nat) :
    Option DmaTransfer :=
  if mainMemOutSet flags then
    some
      { fromFifo := true
        destAddress := main_mem_out_address
        srcInc := false
        dstInc := true
        elementSize := 8
        beats := (dma_total_byte + 8) / 8
        burst := 8
        signalsCompletion := true }
  else none

/-- Claim C7 (amended): for every convolutional layer with the main-mem-out
flag set, the output DMA from the KPU output FIFO to the scratch destination
transfers exactly `(dma_total_byte + 8) / 8` beats — C integer (floor)
division, which equals `⌈(dma_total_byte + 8) / 8⌉` exactly when
`dma_total_byte` is a multiple of 8 — of 64 bits (8-byte elements) with burst
8, signalling the engine completion semaphore on completion. -/
theorem conv_output_dma_spec (flags dest dma_total_byte : Nat)
    (h : mainMemOutSet flags = true) :
    kpu_conv_output_dma flags dest dma_total_byte =
      some
        { fromFifo := true
          destAddress := dest
          srcInc := false
          dstInc := true
          elementSize := 8
          beats := (dma_total_byte + 8) / 8
          burst := 8
          signalsCompletion := true } ∧
    (dma_total_byte % 8 = 0 →
      (dma_total_byte + 8) / 8 = (dma_total_byte + 8 + 7) / 8) := by
  constructor
  · unfold kpu_conv_output_dma
    rw [if_pos h]
  · omega

/-- Witness for `conv_output_dma_spec` at `flags = 1`, `dest = 0`,
`dma_total_byte = 16`. -/
theorem conv_output_dma_spec_witness :
    kpu_conv_output_dma 1 0 16 =
      some
        { fromFifo := true
          destAddress := 0
          srcInc := false
          dstInc := true
          elementSize := 8
          beats := (16 + 8) / 8
          burst := 8
          signalsCompletion := true } ∧
    (16 % 8 = 0 → (16 + 8) / 8 = (16 + 8 + 7) / 8) :=
  conv_output_dma_spec 1 0 16 (by decide)

/-- Claim C7 counterexample: at `dma_total_byte = 1` the code issues
`(1 + 8) / 8 = 1` beat, while `⌈(1 + 8) / 8⌉ = (1 + 8 + 7) / 8 = 2`; the beat
count is the floor, not the ceiling, of `(dma_total_byte + 8) / 8`. -/
theorem conv_output_dma_beats_counterexample :
    (kpu_conv_output_dma 1 0 1).map DmaTransfer.beats = some 1 ∧
    (1 + 8 + 7) / 8 = 2 ∧
    (kpu_conv_output_dma 1 0 1).map DmaTransfer.beats ≠ some ((1 + 8 + 7) / 8) := by
  decide

/-! ## Execution driver: `ai_step` and the first-layer gate of `run` (C8, C9)

The layer stream is modelled as a list of headers; `ctx_.current_body` as a
byte offset into the model buffer; the bodies themselves matter to the cursor
only through `body_size`.  The dispatch switch of `ai_step` is kept only so
far as it determines the return value (the `KL_K210_CONV` case returns 0
immediately; the other cases fall through to the last-layer check); the kernel
side effects on the scratch buffer are verified separately per kernel. -/

/-- The closed set of layer type tags of the kmodel format. -/
inductive KpuLayerType where
  | KL_ADD
  | KL_QUANTIZED_ADD
  | KL_GLOBAL_AVERAGE_POOL2D
  | KL_QUANTIZED_MAX_POOL2D
  | KL_QUANTIZE
  | KL_DEQUANTIZE
  | KL_REQUANTIZE
  | KL_L2_NORMALIZATION
  | KL_SOFTMAX
  | KL_CONCAT
  | KL_QUANTIZED_CONCAT
  | KL_K210_CONV
  | KL_K210_ADD_PADDING
  | KL_K210_REMOVE_PADDING
  | KL_K210_UPLOAD
deriving DecidableEq, Inhabited

/-- A layer header (`kpu_model_layer_header_t`): type tag and body size. -/
structure KpuModelLayerHeader where
  type : KpuLayerType
  body_size : Nat
deriving DecidableEq, Inhabited

/-- The cursor fields of `kpu_model_context_t` driven by `ai_step`:
the layer-header array, the current layer index, and the current body offset. -/
structure KpuModelContext where
  layer_headers : List KpuModelLayerHeader
  current_layer : Nat
  current_body : Nat
deriving DecidableEq

/-- `ai_step`: reads the header at `current_layer`, post-increments
`current_layer`, advances `current_body` by the header's `body_size` (all
before the dispatch switch), then dispatches.  The `KL_K210_CONV` case returns
0 immediately after programming the accelerator; every other case falls
through to return 1, except on the last layer where `kpu_done` runs and 0 is
returned. -/
def ai_step (ctx : KpuModelContext) : KpuModelContext × Int :=
  let cnt_layer_id := ctx.current_layer
  let hdr := ctx.layer_headers.getD cnt_layer_id default
  let ctx2 : KpuModelContext :=
    { ctx with
      current_layer := cnt_layer_id + 1
      current_body := ctx.current_body + hdr.body_size }
  let ret : Int :=
    if hdr.type = KpuLayerType.KL_K210_CONV then 0
    else if cnt_layer_id ≠ ctx.layer_headers.length - 1 then 1 else 0
  (ctx2, ret)

/-- `k` repetitions of `ai_step` on the context. -/
def ai_step_iter (ctx : KpuModelContext) : Nat → KpuModelContext
  | 0 => ctx
  | k + 1 => (ai_step (ai_step_iter ctx k)).1

theorem ai_step_iter_layer (headers : List KpuModelLayerHeader)
    (body_start k : Nat) :
    (ai_step_iter ⟨headers, 0, body_start⟩ k).current_layer = k ∧
    (ai_step_iter ⟨headers, 0, body_start⟩ k).layer_headers = headers := by
  induction k with
  | zero => exact ⟨rfl, rfl⟩
  | succ k ih =>
    simp only [ai_step_iter, ai_step]
    exact ⟨by rw [ih.1], ih.2⟩

theorem ai_step_iter_body (headers : List KpuModelLayerHeader)
    (body_start k : Nat) (hk : k ≤ headers.length) :
    (ai_step_iter ⟨headers, 0, body_start⟩ k).current_body =
      body_start + ((headers.take k).map KpuModelLayerHeader.body_size).sum := by
  induction k with
  | zero => simp [ai_step_iter]
  | succ k ih =>
    have hk' : k < headers.length := by omega
    have hlayer := (ai_step_iter_layer headers body_start k).1
    have hheads := (ai_step_iter_layer headers body_start k).2
    simp only [ai_step_iter, ai_step]
    rw [hlayer, hheads, ih (by omega)]
    rw [List.take_succ, List.map_append, List.sum_append]
    rw [List.getD_eq_getElem headers default hk']
    rw [List.getElem?_eq_getElem hk']
    simp [Nat.add_assoc]

/-- Claim C9: every call to `ai_step` advances `current_layer` by exactly 1 and
`current_body` by exactly the `body_size` of the header it dispatches,
whatever the layer type (the cursor updates precede the dispatch switch, so
the early-returning `KL_K210_CONV` case advances identically); consequently,
after `k` steps from a freshly bound context, `current_body` equals
`body_start` plus the sum of `body_size` over the first `k` headers. -/
theorem ai_step_cursor_advance (ctx : KpuModelContext)
    (headers : List KpuModelLayerHeader) (body_start k : Nat)
    (hk : k ≤ headers.length) :
    ((ai_step ctx).1.current_layer = ctx.current_layer + 1 ∧
     (ai_step ctx).1.current_body = ctx.current_body +
       (ctx.layer_headers.getD ctx.current_layer default).body_size) ∧
    ((ai_step_iter ⟨headers, 0, body_start⟩ k).current_layer = k ∧
     (ai_step_iter ⟨headers, 0, body_start⟩ k).current_body =
       body_start + ((headers.take k).map KpuModelLayerHeader.body_size).sum) :=
  ⟨⟨rfl, rfl⟩,
   ⟨(ai_step_iter_layer headers body_start k).1,
    ai_step_iter_body headers body_start k hk⟩⟩

/-- Witness for `ai_step_cursor_advance`: a conv layer followed by a softmax
layer; after both steps the body cursor sits at `body_start + 40 + 12`. -/
theorem ai_step_cursor_advance_witness :
    ((ai_step ⟨[⟨KpuLayerType.KL_K210_CONV, 40⟩, ⟨KpuLayerType.KL_SOFTMAX, 12⟩], 0, 100⟩).1.current_layer = 0 + 1 ∧
     (ai_step ⟨[⟨KpuLayerType.KL_K210_CONV, 40⟩, ⟨KpuLayerType.KL_SOFTMAX, 12⟩], 0, 100⟩).1.current_body =
       100 + (([⟨KpuLayerType.KL_K210_CONV, 40⟩, ⟨KpuLayerType.KL_SOFTMAX, 12⟩] : List KpuModelLayerHeader).getD 0 default).body_size) ∧
    ((ai_step_iter ⟨[⟨KpuLayerType.KL_K210_CONV, 40⟩, ⟨KpuLayerType.KL_SOFTMAX, 12⟩], 0, 100⟩ 2).current_layer = 2 ∧
     (ai_step_iter ⟨[⟨KpuLayerType.KL_K210_CONV, 40⟩, ⟨KpuLayerType.KL_SOFTMAX, 12⟩], 0, 100⟩ 2).current_body =
       100 + ((([⟨KpuLayerType.KL_K210_CONV, 40⟩, ⟨KpuLayerType.KL_SOFTMAX, 12⟩] : List KpuModelLayerHeader).take 2).map KpuModelLayerHeader.body_size).sum) :=
  ai_step_cursor_advance
    ⟨[⟨KpuLayerType.KL_K210_CONV, 40⟩, ⟨KpuLayerType.KL_SOFTMAX, 12⟩], 0, 100⟩
    [⟨KpuLayerType.KL_K210_CONV, 40⟩, ⟨KpuLayerType.KL_SOFTMAX, 12⟩] 100 2
    (by decide)

/-- The layer loop of `run`: while `current_layer ≠ layers_length`, dispatch
the next layer through `ai_step`, recording the type of each dispatched
layer.  Fuel bounds the iteration (the driver loops until the cursor reaches
`layers_length`). -/
def run_loop (ctx : KpuModelContext) : Nat → List KpuLayerType
  | 0 => []
  | fuel + 1 =>
    if ctx.current_layer = ctx.layer_headers.length then []
    else
      (ctx.layer_headers.getD ctx.current_layer default).type ::
        run_loop (ai_step ctx).1 fuel

/-- `k_kpu_driver::run`, reduced to its layer sequencing: the context is bound
with `current_layer = 0` and `current_body = body_start`; then the first
layer's header is read and, if its type is not `KL_K210_CONV`, `run` returns
`-1` before any input staging or layer dispatch; otherwise the driver stages
the input and drives `ai_step` until the cursor reaches `layers_length`.  The
result is the status paired with the dispatched layer types. -/
def run_model (headers : List KpuModelLayerHeader) (body_start : Nat) :
    Int × List KpuLayerType :=
  if (headers.getD 0 default).type ≠ KpuLayerType.KL_K210_CONV then (-1, [])
  else (0, run_loop ⟨headers, 0, body_start⟩ headers.length)

/-- Claim C8: for every model whose first layer header has a type tag
different from `KL_K210_CONV`, `run` returns a negative status and dispatches
no layer: the layer loop is never entered. -/
theorem run_first_layer_not_conv (h0 : KpuModelLayerHeader)
    (rest : List KpuModelLayerHeader) (body_start : Nat)
    (hne : h0.type ≠ KpuLayerType.KL_K210_CONV) :
    (run_model (h0 :: rest) body_start).1 = -1 ∧
    (run_model (h0 :: rest) body_start).2 = [] := by
  unfold run_model
  rw [if_pos (by simpa using hne)]
  exact ⟨rfl, rfl⟩

/-- Witness for `run_first_layer_not_conv`: a model whose first layer is a
softmax layer. -/
theorem run_first_layer_not_conv_witness :
    (run_model [⟨KpuLayerType.KL_SOFTMAX, 12⟩] 0).1 = -1 ∧
    (run_model [⟨KpuLayerType.KL_SOFTMAX, 12⟩] 0).2 = [] :=
  run_first_layer_not_conv ⟨KpuLayerType.KL_SOFTMAX, 12⟩ [] 0 (by decide)

/-! ## CPU kernels: `kpu_requantize` and `kpu_quantize` frame effect (C10)

Both kernels loop `i < count`, each iteration reading from the input region of
the current scratch memory and writing one byte at `out + i`.  The generic
loop shape is factored out so the frame lemma covers both. -/

/-- A scratch-to-scratch kernel loop: iteration `i` writes at `base + i` a
value computed (by `v`) from the scratch memory as it stands at that
iteration. -/
def scratchLoop (base count : Nat) (v : (Nat → Nat) → Nat → Nat)
    (mem : Nat → Nat) : Nat → Nat :=
  (List.range count).foldl (fun m i => memUpd m (base + i) (v m i)) mem

/-- `kpu_requantize`: `dest[oc] = table[*src++]` for `oc < count`, with
`src = main_buffer + main_mem_in_address` and
`dest = main_buffer + main_mem_out_address`. -/
def kpu_requantize (main_mem_in main_mem_out count : Nat) (table : Nat → Nat)
    (mem : Nat → Nat) : Nat → Nat :=
  scratchLoop main_mem_out count (fun m oc => table (m (main_mem_in + oc))) mem

/-- `kpu_quantize`: iteration `i` reads the 4 bytes of float `src[i]` at
`main_mem_in + 4 * i .. + 3` and stores one byte at `mem_out + i`.  The value
computation `(*src - bias) * (1 / scale)` clamped to `[0, 255]` is
floating-point; it is abstracted by `qval`, a function of the four bytes of
the float read. -/
def kpu_quantize (qval : Nat → Nat → Nat → Nat → Nat)
    (main_mem_in mem_out count : Nat) (mem : Nat → Nat) : Nat → Nat :=
  scratchLoop mem_out count
    (fun m i =>
      qval (m (main_mem_in + 4 * i)) (m (main_mem_in + 4 * i + 1))
        (m (main_mem_in + 4 * i + 2)) (m (main_mem_in + 4 * i + 3))) mem

theorem scratchLoop_frame (base count : Nat) (v : (Nat → Nat) → Nat → Nat)
    (mem : Nat → Nat) (a : Nat) (ha : a < base ∨ base + count ≤ a) :
    scratchLoop base count v mem a = mem a := by
  induction count with
  | zero => rfl
  | succ n ih =>
    unfold scratchLoop at ih ⊢
    rw [List.range_succ, List.foldl_append, List.foldl_cons, List.foldl_nil]
    show memUpd _ (base + n) _ a = mem a
    unfold memUpd
    rw [if_neg (by omega)]
    exact ih (by omega)

theorem scratchLoop_value (base count : Nat) (v : (Nat → Nat) → Nat → Nat)
    (mem : Nat → Nat) (i : Nat) (hi : i < count)
    (hv : ∀ n, n < count → ∀ m : Nat → Nat,
      (∀ a, a < base ∨ base + n ≤ a → m a = mem a) → v m n = v mem n) :
    scratchLoop base count v mem (base + i) = v mem i := by
  induction count with
  | zero => omega
  | succ n ih =>
    unfold scratchLoop at ih ⊢
    rw [List.range_succ, List.foldl_append, List.foldl_cons, List.foldl_nil]
    show memUpd (scratchLoop base n v mem) (base + n) (v (scratchLoop base n v mem) n)
        (base + i) = v mem i
    unfold memUpd
    by_cases hin : i = n
    · subst hin
      rw [if_pos rfl]
      exact hv i hi _ (fun a ha => scratchLoop_frame base i v mem a ha)
    · rw [if_neg (by omega)]
      exact ih (by omega) (fun n' hn' => hv n' (by omega))

/-- Claim C10: `kpu_requantize` and `kpu_quantize` write only their own output
region.  Unconditionally, every scratch byte outside
`[out, out + count)` is unchanged by either kernel; and when the output region
does not overlap the input region (`count` input bytes for requantize,
`4 * count` for quantize), the `i`-th output byte is exactly the kernel's
function of the original input bytes: `table (mem (in + i))` for requantize
and the abstracted float quantization of the 4 bytes at `in + 4 * i` for
quantize. -/
theorem kernels_frame_effect (main_mem_in main_mem_out count : Nat)
    (table : Nat → Nat) (qval : Nat → Nat → Nat → Nat → Nat)
    (mem : Nat → Nat) :
    (∀ a, a < main_mem_out ∨ main_mem_out + count ≤ a →
      kpu_requantize main_mem_in main_mem_out count table mem a = mem a) ∧
    ((main_mem_in + count ≤ main_mem_out ∨ main_mem_out + count ≤ main_mem_in) →
      ∀ i, i < count →
        kpu_requantize main_mem_in main_mem_out count table mem (main_mem_out + i) =
          table (mem (main_mem_in + i))) ∧
    (∀ a, a < main_mem_out ∨ main_mem_out + count ≤ a →
      kpu_quantize qval main_mem_in main_mem_out count mem a = mem a) ∧
    ((main_mem_in + 4 * count ≤ main_mem_out ∨ main_mem_out + count ≤ main_mem_in) →
      ∀ i, i < count →
        kpu_quantize qval main_mem_in main_mem_out count mem (main_mem_out + i) =
          qval (mem (main_mem_in + 4 * i)) (mem (main_mem_in + 4 * i + 1))
            (mem (main_mem_in + 4 * i + 2)) (mem (main_mem_in + 4 * i + 3))) := by
  refine ⟨?_, ?_, ?_, ?_⟩
  · intro a ha
    exact scratchLoop_frame main_mem_out count _ mem a ha
  · intro hdisj i hi
    refine scratchLoop_value main_mem_out count _ mem i hi ?_
    intro n hn m hm
    rw [hm (main_mem_in + n) (by omega)]
  · intro a ha
    exact scratchLoop_frame main_mem_out count _ mem a ha
  · intro hdisj i hi
    refine scratchLoop_value main_mem_out count _ mem i hi ?_
    intro n hn m hm
    rw [hm (main_mem_in + 4 * n) (by omega), hm (main_mem_in + 4 * n + 1) (by omega),
      hm (main_mem_in + 4 * n + 2) (by omega), hm (main_mem_in + 4 * n + 3) (by omega)]

/-- Witness for `kernels_frame_effect`: requantize of 2 bytes from offset 0 to
offset 8 over the identity memory with table `b ↦ b + 1`, and quantize of 2
elements from offset 0 to offset 100 with the abstract value taken as the sum
of the four float bytes; bytes away from the output regions stay put and the
output bytes carry the computed values. -/
theorem kernels_frame_effect_witness :
    kpu_requantize 0 8 2 (fun b => b + 1) (fun a => a) 20 = 20 ∧
    kpu_requantize 0 8 2 (fun b => b + 1) (fun a => a) (8 + 1) =
      (fun b => b + 1) ((fun a : Nat => a) (0 + 1)) ∧
    kpu_quantize (fun b0 b1 b2 b3 => b0 + b1 + b2 + b3) 0 100 2 (fun a => a) 20 = 20 ∧
    kpu_quantize (fun b0 b1 b2 b3 => b0 + b1 + b2 + b3) 0 100 2 (fun a => a) (100 + 1) =
      (fun b0 b1 b2 b3 => b0 + b1 + b2 + b3)
        ((fun a : Nat => a) (0 + 4 * 1)) ((fun a : Nat => a) (0 + 4 * 1 + 1))
        ((fun a : Nat => a) (0 + 4 * 1 + 2)) ((fun a : Nat => a) (0 + 4 * 1 + 3)) := by
  have h := kernels_frame_effect 0 8 2 (fun b => b + 1)
    (fun b0 b1 b2 b3 => b0 + b1 + b2 + b3) (fun a => a)
  have h2 := kernels_frame_effect 0 100 2 (fun b => b + 1)
    (fun b0 b1 b2 b3 => b0 + b1 + b2 + b3) (fun a => a)
  exact ⟨h.1 20 (by omega), h.2.1 (by omega) 1 (by omega),
    h2.2.2.1 20 (by omega), h2.2.2.2 (by omega) 1 (by omega)⟩
